import Mathlib

/-!
# Verification of `native-keyvault` (`src/index.ts`, class `CredentialStore`)

Shallow embedding of the credential-store core:

* the fallback Authenticated Cache Store (`_encrypt` / `_decrypt` /
  `_saveFallback` / `_getFallback` / `_deleteFallback`), with AES-256-GCM
  abstracted as an AEAD interface and Node's `Buffer` base64 codec embedded
  concretely;
* the facade error policy of `save` / `get` / `delete` (the JS `try`/`catch`
  structure embedded as `Except`-valued attempt outcomes);
* the macOS / Linux native paths (`_saveMac` / `_getMac`, `_saveLinux` /
  `_getLinux`), with the external keychain / secret-service tool modelled as a
  per-service association from accounts to stored secrets, and the command
  strings the code builds embedded verbatim.

Bytes are `Nat` values, constrained `< 256` where it matters; plaintext
secrets on the fallback path are byte lists (the UTF-8 bytes that
`cipher.update(text, 'utf8')` / `.toString('utf8')` convert at the cipher
boundary).
-/

set_option autoImplicit false

namespace NativeKeyvault

/-! ## Base64 (Node `Buffer.toString('base64')` / `Buffer.from(·, 'base64')`) -/

/-- The standard base64 alphabet. -/
def b64Alphabet : List Char :=
  "ABCDEFGHIJKLMNOPQRSTUVWXYZabcdefghijklmnopqrstuvwxyz0123456789+/".toList

/-- Character for a 6-bit group. -/
def b64Char (n : Nat) : Char := b64Alphabet.getD n 'A'

def b64IndexAux : List Char → Char → Nat → Option Nat
  | [], _, _ => none
  | a :: rest, c, i => if a = c then some i else b64IndexAux rest c (i + 1)

/-- Index of a character in the base64 alphabet. -/
def b64Index (c : Char) : Option Nat := b64IndexAux b64Alphabet c 0

/-- Base64-encode a byte list, three bytes to four characters, `'='` padding. -/
def b64EncodeChunks : List Nat → List Char
  | [] => []
  | [a] => [b64Char (a / 4), b64Char (a % 4 * 16), '=', '=']
  | [a, b] => [b64Char (a / 4), b64Char (a % 4 * 16 + b / 16), b64Char (b % 16 * 4), '=']
  | a :: b :: c :: rest =>
      b64Char (a / 4) :: b64Char (a % 4 * 16 + b / 16) ::
        b64Char (b % 16 * 4 + c / 64) :: b64Char (c % 64) :: b64EncodeChunks rest

/-- `Buffer.concat([...]).toString('base64')`. -/
def b64Encode (bytes : List Nat) : String := String.mk (b64EncodeChunks bytes)

/-- Base64-decode four characters at a time; `'='` padding only in a final group. -/
def b64DecodeChunks : List Char → Option (List Nat)
  | [] => some []
  | c1 :: c2 :: c3 :: c4 :: rest =>
      if c3 = '=' then
        if c4 = '=' ∧ rest = [] then
          match b64Index c1, b64Index c2 with
          | some d1, some d2 => some [d1 * 4 + d2 / 16]
          | _, _ => none
        else none
      else if c4 = '=' then
        if rest = [] then
          match b64Index c1, b64Index c2, b64Index c3 with
          | some d1, some d2, some d3 =>
              some [d1 * 4 + d2 / 16, d2 % 16 * 16 + d3 / 4]
          | _, _, _ => none
        else none
      else
        match b64Index c1, b64Index c2, b64Index c3, b64Index c4, b64DecodeChunks rest with
        | some d1, some d2, some d3, some d4, some bs =>
            some ((d1 * 4 + d2 / 16) :: (d2 % 16 * 16 + d3 / 4) :: (d3 % 4 * 64 + d4) :: bs)
        | _, _, _, _, _ => none
  | _ => none

/-- `Buffer.from(s, 'base64')` on a string produced by `b64Encode`. -/
def b64Decode (s : String) : Option (List Nat) := b64DecodeChunks s.toList


/-! ## String-keyed association lists

The JS objects the code manipulates — the parsed `credentials.json` mapping
(`JSON.parse` / `JSON.stringify` of a `Record<string, string>`) and the
per-service entry tables of the external credential tools — are embedded as
association lists with unique keys. `setKey` is JS property assignment
`obj[k] = v` (overwrite in place or append), `delKey` is `delete obj[k]`,
`lookupKey` is property read. -/

def setKey : List (String × String) → String → String → List (String × String)
  | [], k, v => [(k, v)]
  | (k', v') :: rest, k, v =>
      if k' = k then (k, v) :: rest else (k', v') :: setKey rest k v

def delKey : List (String × String) → String → List (String × String)
  | [], _ => []
  | (k', v') :: rest, k => if k' = k then rest else (k', v') :: delKey rest k

def lookupKey : List (String × String) → String → Option String
  | [], _ => none
  | (k', v') :: rest, k => if k' = k then some v' else lookupKey rest k


/-! ## AEAD abstraction

`node:crypto`'s AES-256-GCM (`createCipheriv('aes-256-gcm', key, iv)` with
`update(text, 'utf8')` / `final` / `getAuthTag`, and the matching decipher
with `setAuthTag`) is an external primitive; it is embedded as an abstract
authenticated cipher over byte lists. `enc key iv plaintext` returns
`(ciphertext, tag)`; `dec key iv tag ciphertext` returns the plaintext when
the tag authenticates and `none` otherwise (a GCM `final()` authentication
throw is `none`). The fields state only what the repository's code relies
on: the tag is 16 bytes, ciphertext and tag are byte-valued for byte-valued
inputs, and decryption inverts encryption under the same key, nonce and tag. -/

structure AEAD where
  enc : List Nat → List Nat → List Nat → List Nat × List Nat
  dec : List Nat → List Nat → List Nat → List Nat → Option (List Nat)
  tag_len : ∀ k iv p, (enc k iv p).2.length = 16
  enc_bytes : ∀ k iv p, (∀ b ∈ iv, b < 256) → (∀ b ∈ p, b < 256) →
    (∀ b ∈ (enc k iv p).1, b < 256) ∧ (∀ b ∈ (enc k iv p).2, b < 256)
  dec_enc : ∀ k iv p, dec k iv (enc k iv p).2 (enc k iv p).1 = some p

namespace CredentialStore

/-- `_encrypt` (src/index.ts:249-256): encrypt with a fresh 12-byte `iv`,
produce `Buffer.concat([iv, tag, enc]).toString('base64')`. The random
`iv` drawn by `crypto.randomBytes(12)` is an explicit argument. -/
def encrypt (A : AEAD) (key iv p : List Nat) : String :=
  b64Encode (iv ++ (A.enc key iv p).2 ++ (A.enc key iv p).1)

/-- `_decrypt` (src/index.ts:258-267): base64-decode, slice
`buf.slice(0,12)` / `buf.slice(12,28)` / `buf.slice(28)`, decipher with the
tag set. Any throw (base64-less garbage aside — `Buffer.from` is lenient,
but GCM authentication then fails) is `none`. -/
def decrypt (A : AEAD) (key : List Nat) (data : String) : Option (List Nat) :=
  match b64Decode data with
  | none => none
  | some buf => A.dec key (buf.take 12) ((buf.drop 12).take 16) (buf.drop 28)

/-- `_saveFallback` (src/index.ts:269-273): re-encrypt and store under
`account` in the cache mapping, then persist the whole mapping. -/
def saveFallback (A : AEAD) (key iv : List Nat) (cache : List (String × String))
    (account : String) (password : List Nat) : List (String × String) :=
  setKey cache account (encrypt A key iv password)

/-- `_getFallback` (src/index.ts:275-285): read the mapping; JS-falsy lookup
(absent, or present with an empty-string blob) is `null`; otherwise decrypt,
catching any decryption throw as `null`. -/
def getFallback (A : AEAD) (key : List Nat) (cache : List (String × String))
    (account : String) : Option (List Nat) :=
  match lookupKey cache account with
  | none => none
  | some blob => if blob = "" then none else decrypt A key blob

/-- `_deleteFallback` (src/index.ts:287-291): drop the entry, persist. -/
def deleteFallback (cache : List (String × String)) (account : String) :
    List (String × String) :=
  delKey cache account

/-! ## Facade error policy (`save` / `get` / `delete`, src/index.ts:24-71)

Each public method wraps one attempt in `try`/`catch` and branches on
`this.useFallback`. An attempt's outcome is an `Except String` value: `.ok`
for normal return, `.error` for a JS throw. The native attempt and the
fallback attempt are the two possible calls; the method bodies below copy
the `try`/`catch` structure exactly:

* `save`: try the chosen backend; on a throw, a non-fallback-forced store
  warns and runs the fallback attempt (whose own outcome, success or throw,
  is final), while a fallback-forced store rethrows the same error.
* `get`: same dispatch; in the catch, a non-fallback-forced store returns
  `this._getFallback(account)` **outside any try**, so a fallback throw
  propagates; a fallback-forced store returns `null`.
* `delete`: same shape as `save`. -/

def save (useFallback : Bool) (native fallback : Except String Unit) :
    Except String Unit :=
  if !useFallback then
    match native with
    | .ok _ => .ok ()
    | .error _ => fallback
  else
    match fallback with
    | .ok _ => .ok ()
    | .error e => .error e

def get {α : Type} (useFallback : Bool)
    (native fallback : Except String (Option α)) : Except String (Option α) :=
  if !useFallback then
    match native with
    | .ok v => .ok v
    | .error _ => fallback
  else
    match fallback with
    | .ok v => .ok v
    | .error _ => .ok none

def «delete» (useFallback : Bool) (native fallback : Except String Unit) :
    Except String Unit :=
  if !useFallback then
    match native with
    | .ok _ => .ok ()
    | .error _ => fallback
  else
    match fallback with
    | .ok _ => .ok ()
    | .error e => .error e

/-! ## Native macOS / Linux paths

The external tools (`security` on macOS, `secret-tool` on Linux) are
external collaborators. Modelled from the spec: §6 "macOS: create/overwrite
a generic credential identified by (account, service) …; lookup returns
secret" and "Linux: create/overwrite a secret-service entry tagged with
attributes (service, account)" — each tool keeps, per service, an
association from accounts to stored secrets; a successful lookup's process
output is the stored secret. What the repository's own code contributes —
the command strings it builds and the `.trim()` it applies to lookup
output — is embedded verbatim below. -/

/-- JS `String.prototype.trim` on the ASCII whitespace the secrets at issue
contain (space, tab, LF, CR — `Char.isWhitespace`). -/
def jsTrim (s : String) : String :=
  String.mk (((s.toList.dropWhile Char.isWhitespace).reverse.dropWhile
    Char.isWhitespace).reverse)

/-- `_saveMac` (src/index.ts:107-111): `security add-generic-password … -U`
creates or overwrites the keychain entry for `account`. The model assumes
the shell delivers the interpolated arguments verbatim (true only when
`account` and `password` contain no shell metacharacters — see
`saveMacCommand` for the raw command string). -/
def saveMac (keychain : List (String × String)) (account password : String) :
    List (String × String) :=
  setKey keychain account password

/-- `_getMac` (src/index.ts:113-123): run
`security find-generic-password … -w` and `.trim()` its output; a tool
throw (no match) is caught and returned as `null`. -/
def getMac (keychain : List (String × String)) (account : String) :
    Option String :=
  (lookupKey keychain account).map jsTrim

/-- `_saveLinux` (src/index.ts:183-191): `secret-tool store` with the
password piped through `{ input: password }` (stdin), stored verbatim. -/
def saveLinux (secrets : List (String × String)) (account password : String) :
    List (String × String) :=
  setKey secrets account password

/-- `_getLinux` (src/index.ts:193-206): `secret-tool lookup` with `.trim()`
on the output; a tool throw is caught as `null`. (The
`secret-tool`-missing branch throws before the lookup; that throw is an
attempt outcome handled by the facade model `get`.) -/
def getLinux (secrets : List (String × String)) (account : String) :
    Option String :=
  (lookupKey secrets account).map jsTrim

/-- The exact shell command string `_saveMac` (src/index.ts:107-111) passes
to `execSync`: account, service and **password** are interpolated into the
command text; nothing is piped to stdin. -/
def saveMacCommand (service account password : String) : String :=
  "security add-generic-password -a \"" ++ account ++ "\" -s \"" ++ service ++
    "\" -w \"" ++ password ++ "\" -U"

/-- `script.replace(/"/g, '\\"')` in `_saveWindows` (src/index.ts:142):
replace every double quote by backslash-quote. -/
def psEscape (s : String) : String :=
  String.mk (s.toList.foldr
    (fun c acc => if c = '\"' then '\\' :: '\"' :: acc else c :: acc) [])

/-- The PowerShell script text `_saveWindows` (src/index.ts:136-143) builds:
the **password** is interpolated into the script between single quotes. -/
def saveWindowsScript (file password : String) : String :=
  "\n$secure = ConvertTo-SecureString " ++ "\x27" ++ password ++
    "\x27 -AsPlainText -Force\n$secure | ConvertFrom-SecureString | Set-Content " ++
    "\x27" ++ file ++ "\x27\n"

/-- The exact shell command string `_saveWindows` passes to `execSync`. -/
def saveWindowsCommand (file password : String) : String :=
  "pwsh -NoProfile -Command \"" ++ psEscape (saveWindowsScript file password) ++ "\""

end CredentialStore

/-! ## A concrete AEAD instance

Used only to witness the AEAD-parameterised theorems on concrete inputs:
ciphertext is the plaintext itself and the tag is sixteen zero bytes, with
decryption checking the tag. It satisfies every `AEAD` law. -/

def idAEAD : AEAD where
  enc := fun _ _ p => (p, List.replicate 16 0)
  dec := fun _ _ tag c => if tag = List.replicate 16 0 then some c else none
  tag_len := fun _ _ _ => List.length_replicate 16 0
  enc_bytes := fun _ _ p _ hp =>
    ⟨hp, fun b hb => by
      have : b = 0 := List.eq_of_mem_replicate hb
      omega⟩
  dec_enc := fun _ _ _ => if_pos rfl

/-! ## Base64 and association-list lemmas -/

theorem b64Index_b64Char (n : Nat) (h : n < 64) : b64Index (b64Char n) = some n := by
  have hall : ∀ m : Fin 64, b64Index (b64Char m.1) = some m.1 := by decide
  exact hall ⟨n, h⟩

theorem b64Char_ne_pad (n : Nat) : b64Char n ≠ '=' := by
  by_cases h : n < 64
  · have hall : ∀ m : Fin 64, b64Char m.1 ≠ '=' := by decide
    exact hall ⟨n, h⟩
  · have hlen : b64Alphabet.length ≤ n := by
      have : b64Alphabet.length = 64 := by decide
      omega
    unfold b64Char
    rw [List.getD_eq_default _ _ hlen]
    decide

/-- The base64 decoder inverts the encoder on byte lists. -/
theorem b64_roundtrip : ∀ bytes : List Nat, (∀ b ∈ bytes, b < 256) →
    b64DecodeChunks (b64EncodeChunks bytes) = some bytes
  | [], _ => rfl
  | [a], h => by
      have ha : a < 256 := h a (by simp)
      have h1 : b64Index (b64Char (a / 4)) = some (a / 4) :=
        b64Index_b64Char _ (by omega)
      have h2 : b64Index (b64Char (a % 4 * 16)) = some (a % 4 * 16) :=
        b64Index_b64Char _ (by omega)
      simp [b64EncodeChunks, b64DecodeChunks, h1, h2]
      all_goals omega
  | [a, b], h => by
      have ha : a < 256 := h a (by simp)
      have hb : b < 256 := h b (by simp)
      have h1 : b64Index (b64Char (a / 4)) = some (a / 4) :=
        b64Index_b64Char _ (by omega)
      have h2 : b64Index (b64Char (a % 4 * 16 + b / 16)) = some (a % 4 * 16 + b / 16) :=
        b64Index_b64Char _ (by omega)
      have h3 : b64Index (b64Char (b % 16 * 4)) = some (b % 16 * 4) :=
        b64Index_b64Char _ (by omega)
      simp [b64EncodeChunks, b64DecodeChunks, b64Char_ne_pad, h1, h2, h3]
      all_goals omega
  | a :: b :: c :: rest, h => by
      have ha : a < 256 := h a (by simp)
      have hb : b < 256 := h b (by simp)
      have hc : c < 256 := h c (by simp)
      have ih := b64_roundtrip rest (fun x hx => h x (by simp [hx]))
      have h1 : b64Index (b64Char (a / 4)) = some (a / 4) :=
        b64Index_b64Char _ (by omega)
      have h2 : b64Index (b64Char (a % 4 * 16 + b / 16)) = some (a % 4 * 16 + b / 16) :=
        b64Index_b64Char _ (by omega)
      have h3 : b64Index (b64Char (b % 16 * 4 + c / 64)) = some (b % 16 * 4 + c / 64) :=
        b64Index_b64Char _ (by omega)
      have h4 : b64Index (b64Char (c % 64)) = some (c % 64) :=
        b64Index_b64Char _ (by omega)
      simp [b64EncodeChunks, b64DecodeChunks, b64Char_ne_pad, h1, h2, h3, h4, ih]
      all_goals omega

/-- Encoding a non-empty byte list never yields the empty string. -/
theorem b64EncodeChunks_ne_nil : ∀ (a : Nat) (rest : List Nat),
    b64EncodeChunks (a :: rest) ≠ []
  | _, [] => by simp [b64EncodeChunks]
  | _, [_] => by simp [b64EncodeChunks]
  | _, _ :: _ :: _ => by simp [b64EncodeChunks]

theorem lookupKey_setKey_self : ∀ (m : List (String × String)) (k v : String),
    lookupKey (setKey m k v) k = some v
  | [], _, _ => by simp [setKey, lookupKey]
  | (k', v') :: rest, k, v => by
      by_cases h : k' = k
      · simp [setKey, lookupKey, h]
      · simp only [setKey, lookupKey, if_neg h]
        exact lookupKey_setKey_self rest k v

theorem lookupKey_setKey_ne : ∀ (m : List (String × String)) (k v b : String),
    b ≠ k → lookupKey (setKey m k v) b = lookupKey m b
  | [], k, v, b, hne => by simp [setKey, lookupKey, Ne.symm hne]
  | (k', v') :: rest, k, v, b, hne => by
      by_cases h : k' = k
      · subst h
        have hkb : ¬k' = b := fun h' => hne h'.symm
        simp [setKey, lookupKey, hkb]
      · simp only [setKey, lookupKey, if_neg h]
        by_cases h' : k' = b
        · simp [h']
        · simp only [lookupKey, if_neg h']
          exact lookupKey_setKey_ne rest k v b hne

theorem lookupKey_delKey_ne : ∀ (m : List (String × String)) (k b : String),
    b ≠ k → lookupKey (delKey m k) b = lookupKey m b
  | [], k, b, hne => by simp [delKey, lookupKey]
  | (k', v') :: rest, k, b, hne => by
      by_cases h : k' = k
      · subst h
        have hkb : ¬k' = b := fun h' => hne h'.symm
        simp [delKey, lookupKey, hkb]
      · simp only [delKey, lookupKey, if_neg h]
        by_cases h' : k' = b
        · simp [h']
        · simp only [lookupKey, if_neg h']
          exact lookupKey_delKey_ne rest k b hne

/-! ## Supporting lemmas about the fallback cipher pipeline -/

theorem encrypt_ne_empty (A : AEAD) (key iv p : List Nat) (hiv : iv.length = 12) :
    CredentialStore.encrypt A key iv p ≠ "" := by
  cases hiv' : iv with
  | nil => subst hiv'; simp at hiv
  | cons a rest =>
      subst hiv'
      intro h
      unfold CredentialStore.encrypt b64Encode at h
      have hdata : b64EncodeChunks
          ((a :: rest) ++ (A.enc key (a :: rest) p).2 ++ (A.enc key (a :: rest) p).1)
            = [] := congrArg String.data h
      rw [List.cons_append, List.cons_append] at hdata
      exact b64EncodeChunks_ne_nil _ _ hdata

theorem b64Decode_encrypt (A : AEAD) (key iv p : List Nat)
    (hivb : ∀ b ∈ iv, b < 256) (hp : ∀ b ∈ p, b < 256) :
    b64Decode (CredentialStore.encrypt A key iv p)
      = some (iv ++ (A.enc key iv p).2 ++ (A.enc key iv p).1) := by
  have hb := A.enc_bytes key iv p hivb hp
  show b64DecodeChunks
      (b64EncodeChunks (iv ++ (A.enc key iv p).2 ++ (A.enc key iv p).1)) = _
  apply b64_roundtrip
  intro b hbm
  rcases List.mem_append.1 hbm with h1 | h2
  · rcases List.mem_append.1 h1 with h3 | h4
    · exact hivb b h3
    · exact hb.2 b h4
  · exact hb.1 b h2

theorem blob_slices (iv tag ct : List Nat) (hiv : iv.length = 12)
    (htag : tag.length = 16) :
    (iv ++ tag ++ ct).take 12 = iv ∧
    ((iv ++ tag ++ ct).drop 12).take 16 = tag ∧
    (iv ++ tag ++ ct).drop 28 = ct := by
  refine ⟨?_, ?_, ?_⟩
  · rw [List.append_assoc]
    exact List.take_left' hiv
  · rw [List.append_assoc, List.drop_left' hiv]
    exact List.take_left' htag
  · exact List.drop_left' (by rw [List.length_append, hiv, htag])

theorem decrypt_encrypt (A : AEAD) (key iv p : List Nat) (hiv : iv.length = 12)
    (hivb : ∀ b ∈ iv, b < 256) (hp : ∀ b ∈ p, b < 256) :
    CredentialStore.decrypt A key (CredentialStore.encrypt A key iv p) = some p := by
  have hs := blob_slices iv (A.enc key iv p).2 (A.enc key iv p).1 hiv
    (A.tag_len key iv p)
  unfold CredentialStore.decrypt
  simp only [b64Decode_encrypt A key iv p hivb hp]
  rw [hs.1, hs.2.1, hs.2.2]
  exact A.dec_enc key iv p

theorem getFallback_saveFallback (A : AEAD) (key iv : List Nat)
    (cache : List (String × String)) (account : String) (p : List Nat)
    (hiv : iv.length = 12) (hivb : ∀ b ∈ iv, b < 256)
    (hp : ∀ b ∈ p, b < 256) :
    CredentialStore.getFallback A key
      (CredentialStore.saveFallback A key iv cache account p) account = some p := by
  unfold CredentialStore.getFallback CredentialStore.saveFallback
  simp only [lookupKey_setKey_self]
  rw [if_neg (encrypt_ne_empty A key iv p hiv)]
  exact decrypt_encrypt A key iv p hiv hivb hp

theorem getMac_saveMac (kc : List (String × String)) (a s : String) :
    CredentialStore.getMac (CredentialStore.saveMac kc a s) a
      = some (CredentialStore.jsTrim s) := by
  unfold CredentialStore.getMac CredentialStore.saveMac
  rw [lookupKey_setKey_self]
  rfl

/-! ## Claim theorems -/

/-- Claim C1, counterexample: on the native macOS path the code violates the
claim. Save the secret `" secret "` (with surrounding whitespace) for account
`"user"` on an empty keychain; the immediately following `get` returns
`"secret"` — `_getMac` applies `.trim()` to the tool's output — which is not
the saved secret. -/
theorem c1_counterexample :
    CredentialStore.getMac (CredentialStore.saveMac [] "user" " secret ") "user"
        = some "secret" ∧
    (" secret " : String) ≠ "secret" := by
  exact ⟨rfl, by decide⟩

/-- Claim C1 (amended): `get` immediately after `save(account, secret)`
returns exactly `secret` on the fallback store (for every account, every
byte-sequence secret — including the empty one — every prior cache state,
key, and fresh 12-byte nonce); on the native macOS path it returns the
secret with surrounding whitespace trimmed instead. -/
theorem c1_save_get_roundtrip (A : AEAD) (key iv : List Nat)
    (cache : List (String × String)) (account : String) (password : List Nat)
    (hiv : iv.length = 12) (hivb : ∀ b ∈ iv, b < 256)
    (hp : ∀ b ∈ password, b < 256) :
    CredentialStore.getFallback A key
        (CredentialStore.saveFallback A key iv cache account password) account
        = some password ∧
    ∀ (kc : List (String × String)) (a s : String),
      CredentialStore.getMac (CredentialStore.saveMac kc a s) a
        = some (CredentialStore.jsTrim s) :=
  ⟨getFallback_saveFallback A key iv cache account password hiv hivb hp,
   fun kc a s => getMac_saveMac kc a s⟩

/-- Claim C1, witness: a concrete instantiation of the amended round-trip —
secret bytes `[104, 105]`, a zero nonce, the identity AEAD. -/
theorem c1_witness :
    (List.replicate 12 0).length = 12 ∧ (∀ b ∈ List.replicate 12 0, b < 256) ∧
    (∀ b ∈ [104, 105], b < 256) ∧
    (CredentialStore.getFallback idAEAD []
        (CredentialStore.saveFallback idAEAD [] (List.replicate 12 0) []
          "user@example.com" [104, 105]) "user@example.com" = some [104, 105] ∧
      ∀ (kc : List (String × String)) (a s : String),
        CredentialStore.getMac (CredentialStore.saveMac kc a s) a
          = some (CredentialStore.jsTrim s)) :=
  ⟨by decide, by decide, by decide,
   c1_save_get_roundtrip idAEAD [] (List.replicate 12 0) [] "user@example.com"
     [104, 105] (by decide) (by decide) (by decide)⟩

/-- Claim C2 (code bug): the secret is **not** kept out of the command text.
`_saveMac` interpolates the password into the `security add-generic-password`
command string it hands to `execSync` (no stdin piping), and `_saveWindows`
interpolates it into the PowerShell `-Command` string; only `_saveLinux`
pipes the secret via `{ input: password }`. Evaluated at the repository's
own test inputs, the password appears verbatim inside both command strings —
contradicting the README ("passwords are passed to native tools via stdin")
and the macOS unit test, which asserts `execSync` is called with
`{ input: testPassword }`. -/
theorem c2_password_in_command_text :
    CredentialStore.saveMacCommand "test-credential-store" "test@example.com"
        "super-secret-password"
      = "security add-generic-password -a \"test@example.com\" -s \"test-credential-store\" -w \"super-secret-password\" -U" ∧
    (∃ l r, CredentialStore.saveMacCommand "test-credential-store"
        "test@example.com" "super-secret-password"
        = l ++ "super-secret-password" ++ r) ∧
    (∃ l r, CredentialStore.saveWindowsCommand "C:/keyvault/f.txt"
        "super-secret-password" = l ++ "super-secret-password" ++ r) := by
  refine ⟨rfl,
    ⟨"security add-generic-password -a \"test@example.com\" -s \"test-credential-store\" -w \"", "\" -U", rfl⟩,
    ⟨"pwsh -NoProfile -Command \"\n$secure = ConvertTo-SecureString \x27",
     "\x27 -AsPlainText -Force\n$secure | ConvertFrom-SecureString | Set-Content \x27C:/keyvault/f.txt\x27\n\"", ?_⟩⟩
  rfl

/-- Claim C3, counterexample: in native mode (`useFallback = false`), when
the native attempt throws and the fallback attempt inside the `catch` block
also throws, `get` propagates the fallback's exception to the caller —
`return this._getFallback(account)` in the catch is not itself guarded —
instead of returning the claimed not-found value. -/
theorem c3_counterexample :
    CredentialStore.get false
        (Except.error "native failed" : Except String (Option Nat))
        (Except.error "cache corrupt")
      = Except.error "cache corrupt" ∧
    CredentialStore.get false
        (Except.error "native failed" : Except String (Option Nat))
        (Except.error "cache corrupt")
      ≠ Except.ok none :=
  ⟨rfl, fun h => Except.noConfusion h⟩

/-- Claim C3 (amended): `get` never raises when the store is
fallback-forced — any fallback outcome yields a normal return, a throw
degrading to `null` — but in native mode a successful fallback value is
returned while a fallback throw after a native throw propagates to the
caller. -/
theorem c3_get_error_policy (α : Type) :
    (∀ native fallback : Except String (Option α),
        (CredentialStore.get true native fallback).isOk = true) ∧
    (∀ e1 : String, ∀ v : Option α,
        CredentialStore.get false (Except.error e1) (Except.ok v)
          = Except.ok v) ∧
    (∀ e1 e2 : String,
        CredentialStore.get false (Except.error e1)
          (Except.error e2 : Except String (Option α)) = Except.error e2) := by
  refine ⟨fun native fallback => ?_, fun e1 v => rfl, fun e1 e2 => rfl⟩
  cases fallback <;> rfl

/-- Claim C4, counterexample: on a fallback-forced store, a failing cache
attempt in `get` is **not** propagated unmodified: the `catch` returns
`null`, so the caller sees `Except.ok none` rather than the error. -/
theorem c4_counterexample :
    CredentialStore.get true (Except.ok (none : Option Nat))
        (Except.error "disk full") = Except.ok none ∧
    CredentialStore.get true (Except.ok (none : Option Nat))
        (Except.error "disk full") ≠ Except.error "disk full" :=
  ⟨rfl, fun h => Except.noConfusion h⟩

/-- Claim C4 (amended): a fallback-forced store sends every operation
directly to the Authenticated Cache Store (the native attempt is never
consulted); a cache failure is terminal and propagated unmodified for
`save` and `delete`, while for `get` it is swallowed and returned as the
not-found value `null`. -/
theorem c4_fallback_forced_policy (α : Type) :
    (∀ (n n' fb : Except String Unit),
        CredentialStore.save true n fb = CredentialStore.save true n' fb) ∧
    (∀ (n n' fb : Except String Unit),
        CredentialStore.delete true n fb = CredentialStore.delete true n' fb) ∧
    (∀ (n n' fb : Except String (Option α)),
        CredentialStore.get true n fb = CredentialStore.get true n' fb) ∧
    (∀ (n : Except String Unit) (e : String),
        CredentialStore.save true n (Except.error e) = Except.error e) ∧
    (∀ (n : Except String Unit) (e : String),
        CredentialStore.delete true n (Except.error e) = Except.error e) ∧
    (∀ (n : Except String Unit),
        CredentialStore.save true n (Except.ok ()) = Except.ok ()) ∧
    (∀ (n : Except String (Option α)) (e : String),
        CredentialStore.get true n
          (Except.error e : Except String (Option α)) = Except.ok none) :=
  ⟨fun _ _ _ => rfl, fun _ _ _ => rfl, fun _ _ _ => rfl, fun _ _ => rfl,
   fun _ _ => rfl, fun _ => rfl, fun _ _ => rfl⟩

/-- Claim C5 (confirmed): the fallback `get` returns `null` exactly when the
account is absent from the mapping, or its blob is the JS-falsy empty
string, or decryption of the blob fails (`_decrypt` throwing for any
reason — wrong key, corrupt or truncated blob, failed tag — is caught);
being a total function of the mapping, it never surfaces an exception, and
a decryption failure is indistinguishable from absence. -/
theorem c5_getFallback_none_iff (A : AEAD) (key : List Nat)
    (cache : List (String × String)) (account : String) :
    CredentialStore.getFallback A key cache account = none ↔
      (lookupKey cache account = none ∨
        ∃ blob, lookupKey cache account = some blob ∧
          (blob = "" ∨ CredentialStore.decrypt A key blob = none)) := by
  unfold CredentialStore.getFallback
  cases h : lookupKey cache account with
  | none => simp
  | some blob =>
      by_cases hb : blob = ""
      · simp [hb]
      · simp only [if_neg hb]
        constructor
        · intro hd
          exact Or.inr ⟨blob, rfl, Or.inr hd⟩
        · rintro (hc | ⟨blob', hb', hc⟩)
          · exact Option.noConfusion hc
          · rcases hc with hc | hc
            · cases hb'; exact absurd hc hb
            · cases hb'; exact hc

/-- Claim C6 (confirmed): the stored blob is the base64 encoding of
nonce (12 bytes) ‖ authentication tag (16 bytes) ‖ ciphertext, in that
order; `_decrypt` parses the same layout (`slice(0,12)`, `slice(12,28)`,
`slice(28)` recover exactly the nonce, tag and ciphertext), feeds the tag
to the authenticated decryption — which verifies it before any plaintext is
released — and the pipeline returns exactly the original plaintext. -/
theorem c6_blob_layout (A : AEAD) (key iv p : List Nat)
    (hiv : iv.length = 12) (hivb : ∀ b ∈ iv, b < 256)
    (hp : ∀ b ∈ p, b < 256) :
    CredentialStore.encrypt A key iv p
        = b64Encode (iv ++ (A.enc key iv p).2 ++ (A.enc key iv p).1) ∧
    b64Decode (CredentialStore.encrypt A key iv p)
        = some (iv ++ (A.enc key iv p).2 ++ (A.enc key iv p).1) ∧
    (iv ++ (A.enc key iv p).2 ++ (A.enc key iv p).1).take 12 = iv ∧
    ((iv ++ (A.enc key iv p).2 ++ (A.enc key iv p).1).drop 12).take 16
        = (A.enc key iv p).2 ∧
    (iv ++ (A.enc key iv p).2 ++ (A.enc key iv p).1).drop 28
        = (A.enc key iv p).1 ∧
    CredentialStore.decrypt A key (CredentialStore.encrypt A key iv p)
        = A.dec key iv (A.enc key iv p).2 (A.enc key iv p).1 ∧
    CredentialStore.decrypt A key (CredentialStore.encrypt A key iv p)
        = some p := by
  have hs := blob_slices iv (A.enc key iv p).2 (A.enc key iv p).1 hiv
    (A.tag_len key iv p)
  refine ⟨rfl, b64Decode_encrypt A key iv p hivb hp, hs.1, hs.2.1, hs.2.2, ?_,
    decrypt_encrypt A key iv p hiv hivb hp⟩
  unfold CredentialStore.decrypt
  simp only [b64Decode_encrypt A key iv p hivb hp]
  rw [hs.1, hs.2.1, hs.2.2]

/-- Claim C6, witness: the layout and round-trip at a concrete key, zero
nonce and plaintext `[1, 2, 3]` under the identity AEAD. -/
theorem c6_witness :
    (List.replicate 12 0).length = 12 ∧ (∀ b ∈ List.replicate 12 0, b < 256) ∧
    (∀ b ∈ [1, 2, 3], b < 256) ∧
    (CredentialStore.encrypt idAEAD [7] (List.replicate 12 0) [1, 2, 3]
        = b64Encode (List.replicate 12 0 ++
            (idAEAD.enc [7] (List.replicate 12 0) [1, 2, 3]).2 ++
            (idAEAD.enc [7] (List.replicate 12 0) [1, 2, 3]).1) ∧
      b64Decode (CredentialStore.encrypt idAEAD [7] (List.replicate 12 0) [1, 2, 3])
        = some (List.replicate 12 0 ++
            (idAEAD.enc [7] (List.replicate 12 0) [1, 2, 3]).2 ++
            (idAEAD.enc [7] (List.replicate 12 0) [1, 2, 3]).1) ∧
      (List.replicate 12 0 ++
          (idAEAD.enc [7] (List.replicate 12 0) [1, 2, 3]).2 ++
          (idAEAD.enc [7] (List.replicate 12 0) [1, 2, 3]).1).take 12
        = List.replicate 12 0 ∧
      ((List.replicate 12 0 ++
          (idAEAD.enc [7] (List.replicate 12 0) [1, 2, 3]).2 ++
          (idAEAD.enc [7] (List.replicate 12 0) [1, 2, 3]).1).drop 12).take 16
        = (idAEAD.enc [7] (List.replicate 12 0) [1, 2, 3]).2 ∧
      (List.replicate 12 0 ++
          (idAEAD.enc [7] (List.replicate 12 0) [1, 2, 3]).2 ++
          (idAEAD.enc [7] (List.replicate 12 0) [1, 2, 3]).1).drop 28
        = (idAEAD.enc [7] (List.replicate 12 0) [1, 2, 3]).1 ∧
      CredentialStore.decrypt idAEAD [7]
          (CredentialStore.encrypt idAEAD [7] (List.replicate 12 0) [1, 2, 3])
        = idAEAD.dec [7] (List.replicate 12 0)
            (idAEAD.enc [7] (List.replicate 12 0) [1, 2, 3]).2
            (idAEAD.enc [7] (List.replicate 12 0) [1, 2, 3]).1 ∧
      CredentialStore.decrypt idAEAD [7]
          (CredentialStore.encrypt idAEAD [7] (List.replicate 12 0) [1, 2, 3])
        = some [1, 2, 3]) :=
  ⟨by decide, by decide, by decide,
   c6_blob_layout idAEAD [7] (List.replicate 12 0) [1, 2, 3]
     (by decide) (by decide) (by decide)⟩

/-- Claim C8, counterexample: save `"pw"` then `" pw "` (distinct secrets)
for the same account on the native macOS path; the following `get` returns
`"pw"` — the **earlier** secret, because `_getMac` trims the stored latest
one — so it is not the case that only the latest secret is retrievable. -/
theorem c8_counterexample :
    CredentialStore.getMac
        (CredentialStore.saveMac (CredentialStore.saveMac [] "user" "pw")
          "user" " pw ") "user" = some "pw" ∧
    ("pw" : String) ≠ " pw " := by
  exact ⟨rfl, by decide⟩

/-- Claim C8 (amended): overwriting a save for the same account leaves the
latest secret as the one retrieved: on the fallback store `get` returns
exactly the second secret, and on the native macOS path it returns the
second secret trimmed of surrounding whitespace (which can coincide with
the earlier secret when the two differ only in surrounding whitespace). -/
theorem c8_double_save_latest (A : AEAD) (key iv1 iv2 : List Nat)
    (cache : List (String × String)) (account : String) (p1 p2 : List Nat)
    (hiv : iv2.length = 12) (hivb : ∀ b ∈ iv2, b < 256)
    (hp : ∀ b ∈ p2, b < 256) :
    CredentialStore.getFallback A key
        (CredentialStore.saveFallback A key iv2
          (CredentialStore.saveFallback A key iv1 cache account p1)
          account p2) account = some p2 ∧
    ∀ (kc : List (String × String)) (a s1 s2 : String),
      CredentialStore.getMac
          (CredentialStore.saveMac (CredentialStore.saveMac kc a s1) a s2) a
        = some (CredentialStore.jsTrim s2) :=
  ⟨getFallback_saveFallback A key iv2 _ account p2 hiv hivb hp,
   fun _ a _ s2 => getMac_saveMac _ a s2⟩

/-- Claim C8, witness: a concrete double save — `[1]` then `[2]` — on the
fallback store retrieves `[2]`. -/
theorem c8_witness :
    (List.replicate 12 0).length = 12 ∧ (∀ b ∈ List.replicate 12 0, b < 256) ∧
    (∀ b ∈ [2], b < 256) ∧
    (CredentialStore.getFallback idAEAD []
        (CredentialStore.saveFallback idAEAD [] (List.replicate 12 0)
          (CredentialStore.saveFallback idAEAD [] (List.replicate 12 1) []
            "user@example.com" [1])
          "user@example.com" [2]) "user@example.com" = some [2] ∧
      ∀ (kc : List (String × String)) (a s1 s2 : String),
        CredentialStore.getMac
            (CredentialStore.saveMac (CredentialStore.saveMac kc a s1) a s2) a
          = some (CredentialStore.jsTrim s2)) :=
  ⟨by decide, by decide, by decide,
   c8_double_save_latest idAEAD [] (List.replicate 12 1) (List.replicate 12 0)
     [] "user@example.com" [1] [2] (by decide) (by decide) (by decide)⟩

/-- Claim C9 (confirmed): on the fallback store, `put` and `delete` for
account `a` leave the persisted mapping's entry for every other account
`b ≠ a` unchanged. -/
theorem c9_fallback_frame (A : AEAD) (key iv : List Nat)
    (cache : List (String × String)) (a : String) (p : List Nat) (b : String)
    (hne : b ≠ a) :
    lookupKey (CredentialStore.saveFallback A key iv cache a p) b
        = lookupKey cache b ∧
    lookupKey (CredentialStore.deleteFallback cache a) b = lookupKey cache b :=
  ⟨lookupKey_setKey_ne cache a _ b hne, lookupKey_delKey_ne cache a b hne⟩

/-- Claim C9, witness: the frame property at a concrete two-entry cache. -/
theorem c9_witness :
    ("other@b.com" : String) ≠ "a@b.com" ∧
    (lookupKey (CredentialStore.saveFallback idAEAD [] (List.replicate 12 0)
          [("other@b.com", "blob")] "a@b.com" [1]) "other@b.com"
        = lookupKey [("other@b.com", "blob")] "other@b.com" ∧
      lookupKey (CredentialStore.deleteFallback [("other@b.com", "blob")]
          "a@b.com") "other@b.com"
        = lookupKey [("other@b.com", "blob")] "other@b.com") :=
  ⟨by decide,
   c9_fallback_frame idAEAD [] (List.replicate 12 0) [("other@b.com", "blob")]
     "a@b.com" [1] "other@b.com" (by decide)⟩

/-- Claim C10 (confirmed): on macOS and Linux the native `get` returns the
external tool's output with surrounding whitespace removed — both
`_getMac` and `_getLinux` apply `.trim()` — so a stored secret's
surrounding whitespace (for instance a trailing newline) is stripped from
the value handed back to the caller. -/
theorem c10_native_get_trims (kc lc : List (String × String)) (a s : String)
    (hmac : lookupKey kc a = some s) (hlin : lookupKey lc a = some s) :
    CredentialStore.getMac kc a = some (CredentialStore.jsTrim s) ∧
    CredentialStore.getLinux lc a = some (CredentialStore.jsTrim s) ∧
    CredentialStore.jsTrim "pw\n" = "pw" := by
  refine ⟨?_, ?_, by decide⟩
  · unfold CredentialStore.getMac
    rw [hmac]
    rfl
  · unfold CredentialStore.getLinux
    rw [hlin]
    rfl

/-- Claim C10, witness: a keychain and a secret-service table both holding
the secret `"pw\n"` for account `"a"`; native `get` returns `"pw"`. -/
theorem c10_witness :
    lookupKey [("a", "pw\n")] "a" = some "pw\n" ∧
    lookupKey [("a", "pw\n")] "a" = some "pw\n" ∧
    (CredentialStore.getMac [("a", "pw\n")] "a"
        = some (CredentialStore.jsTrim "pw\n") ∧
      CredentialStore.getLinux [("a", "pw\n")] "a"
        = some (CredentialStore.jsTrim "pw\n") ∧
      CredentialStore.jsTrim "pw\n" = "pw") :=
  ⟨by decide, by decide,
   c10_native_get_trims [("a", "pw\n")] [("a", "pw\n")] "a" "pw\n"
     (by decide) (by decide)⟩

end NativeKeyvault
